import Mathlib

/- Verification development for the RouterOS API client core
   (node-routeros dist sources plus the Express server's session layer).
   The JavaScript source is shallowly embedded: buffers and socket byte
   streams are `List Nat` (bytes), JavaScript strings are `List Char`,
   event-driven objects become explicit state machines, and promises
   become an explicit settle-once `Deferred` sum type. -/

/-! ## Wire codec: Transmitter.encodeString (connector/Transmitter.js) -/

/-- Big-endian byte list of width `n` for the value `m` (helper used to
state the spec's length-prefix table). -/
def beBytes : Nat → Nat → List Nat
  | 0, _ => []
  | n + 1, m => beBytes n (m / 256) ++ [m % 256]

/-- `Transmitter.encodeString` (Transmitter.js lines 65-107) applied to the
win1252-encoded payload bytes of a word; the byte length is `L`.
JavaScript's 32-bit signed bitwise operators coincide with these `Nat`
operations for `L < 2^32` because every emitted byte is masked by
`&&& 0xFF`, which discards the sign-extension bits of `>>`. -/
def encodeString (payload : List Nat) : List Nat :=
  if payload.length < 0x80 then
    payload.length :: payload
  else if payload.length < 0x4000 then
    ((payload.length ||| 0x8000) >>> 8 &&& 0xFF) ::
      ((payload.length ||| 0x8000) &&& 0xFF) :: payload
  else if payload.length < 0x200000 then
    ((payload.length ||| 0xC00000) >>> 16 &&& 0xFF) ::
      ((payload.length ||| 0xC00000) >>> 8 &&& 0xFF) ::
      ((payload.length ||| 0xC00000) &&& 0xFF) :: payload
  else if payload.length < 0x10000000 then
    ((payload.length ||| 0xE0000000) >>> 24 &&& 0xFF) ::
      ((payload.length ||| 0xE0000000) >>> 16 &&& 0xFF) ::
      ((payload.length ||| 0xE0000000) >>> 8 &&& 0xFF) ::
      ((payload.length ||| 0xE0000000) &&& 0xFF) :: payload
  else
    0xF0 :: (payload.length >>> 24 &&& 0xFF) :: (payload.length >>> 16 &&& 0xFF) ::
      (payload.length >>> 8 &&& 0xFF) :: (payload.length &&& 0xFF) :: payload

/-- The variable-width length prefix exactly as the spec's table words it:
selected by the magnitude of the byte length `L`. -/
def lengthPrefixSpec (L : Nat) : List Nat :=
  if L < 0x80 then [L]
  else if L < 0x4000 then beBytes 2 (L ||| 0x8000)
  else if L < 0x200000 then beBytes 3 (L ||| 0xC00000)
  else if L < 0x10000000 then beBytes 4 (L ||| 0xE0000000)
  else 0xF0 :: beBytes 4 L

/-! ## Transmitter pool (connector/Transmitter.js + Connector.onConnect) -/

structure TxState where
  writable : Bool
  pool : List (List Nat)
  sent : List Nat
deriving Repr, DecidableEq

/-- `Transmitter.write` (Transmitter.js 31-41): encode the word; if the
socket is not yet writable or the pool is non-empty, push the encoding on
the pool, otherwise write it to the socket (`sent` is the byte stream the
socket has received, in order). -/
def txWrite (s : TxState) (w : List Nat) : TxState :=
  let encodedData := encodeString w
  if s.writable = false ∨ 0 < s.pool.length then
    { s with pool := s.pool ++ [encodedData] }
  else
    { s with sent := s.sent ++ encodedData }

/-- `Transmitter.runPool` (43-52): repeatedly shift the first pooled
encoding and write it to the socket, until the pool is empty. -/
def runPoolAux : List (List Nat) → List Nat → List Nat
  | [], sent => sent
  | d :: rest, sent => runPoolAux rest (sent ++ d)

def txRunPool (s : TxState) : TxState :=
  { s with pool := [], sent := runPoolAux s.pool s.sent }

/-- `Connector.onConnect` (Connector.js 150-156): on successful connect the
socket becomes writable and the transmitter flushes the pool. -/
def txOnConnect (s : TxState) : TxState :=
  txRunPool { s with writable := true }

def txInit : TxState := { writable := false, pool := [], sent := [] }

/-! ## Words and Channel.parsePacket (Channel.js) -/

/-- A protocol word, as the JavaScript string it decodes to. -/
abbrev Word := List Char

/-- JavaScript `line.split('=')` (Channel.parsePacket, Channel.js 148). -/
def splitEq : Word → List Word
  | [] => [[]]
  | c :: cs =>
    if c = '=' then [] :: splitEq cs
    else
      match splitEq cs with
      | [] => [[c]]
      | p :: ps => (c :: p) :: ps

/-- JavaScript `parts.join('=')` (Channel.parsePacket, Channel.js 150). -/
def joinEq : List Word → Word
  | [] => []
  | [p] => p
  | p :: ps => p ++ '=' :: joinEq ps

/-- One iteration of `Channel.parsePacket` (Channel.js 147-151): split the
word on '=', shift away the first piece, use the next piece as the key and
the '='-join of the remaining pieces as the value.  When fewer than two
pieces exist, JavaScript's `obj[undefined]` stores the property under the
coerced key "undefined". -/
def parseWord (line : Word) : Word × Word :=
  ((splitEq line).tail.headD "undefined".data, joinEq (splitEq line).tail.tail)

/-- JavaScript object property assignment `obj[k] = v`: overwrite in place
when the key already exists, otherwise append. -/
def objInsert (obj : List (Word × Word)) (k v : Word) : List (Word × Word) :=
  if obj.any (fun p => decide (p.1 = k)) then
    obj.map (fun p => if p.1 = k then (k, v) else p)
  else obj ++ [(k, v)]

/-- `Channel.parsePacket` (Channel.js 145-154): fold the attribute words of
a packet into a plain key/value record. -/
def parsePacket (packet : List Word) : List (Word × Word) :=
  packet.foldl (fun obj line => objInsert obj (parseWord line).1 (parseWord line).2) []

/-- JavaScript property read `obj[k]` with a default for `undefined`. -/
def objLookupD (obj : List (Word × Word)) (k d : Word) : Word :=
  match obj.find? (fun p => decide (p.1 = k)) with
  | some p => p.2
  | none => d

/-- The record `Channel.processPacket` builds from a sentence: the reply
marker is shifted off first (Channel.js 112-114), so only the remaining
attribute words are parsed. -/
def sentenceRecord (packet : List Word) : List (Word × Word) :=
  parsePacket packet.tail

/-! ## Channel reply processing and its deferred result (Channel.js) -/

/-- A promise that can settle at most once. -/
inductive Deferred
  | pending
  | resolved (data : List (List (Word × Word)))
  | rejected (msg : Word)
deriving Repr, DecidableEq

structure CState where
  streaming : Bool
  trapped : Bool
  /-- connector.stopRead ran: the tag is unregistered, nothing more is delivered -/
  closed : Bool
  /-- the once 'unknown' listener threw out of the socket data handler -/
  crashed : Bool
  /-- the persistent 'data' listener registered by write with returnPromise -/
  dataL : Bool
  /-- the once 'done' listener resolving the deferred result -/
  doneL : Bool
  /-- the once 'trap' listener rejecting the deferred result -/
  trapL : Bool
  /-- the once 'unknown' listener from the constructor -/
  unknownL : Bool
  dataAcc : List (List (Word × Word))
  result : Deferred
  /-- ghost: number of times the deferred result actually resolved -/
  resolveCount : Nat
  /-- ghost: number of times the deferred result actually rejected -/
  rejectCount : Nat
deriving Repr, DecidableEq

/-- Promise resolution: settles only while pending. -/
def chResolve (s : CState) (d : List (List (Word × Word))) : CState :=
  if s.result = .pending then
    { s with result := .resolved d, resolveCount := s.resolveCount + 1 }
  else s

/-- Promise rejection: settles only while pending. -/
def chReject (s : CState) (m : Word) : CState :=
  if s.result = .pending then
    { s with result := .rejected m, rejectCount := s.rejectCount + 1 }
  else s

/-- `Channel.close` (Channel.js 85-91) with force = false: remove all
listeners unless streaming, then ask the connector to stop reading the tag. -/
def chClose (s : CState) : CState :=
  if s.streaming then { s with closed := true }
  else { s with dataL := false, doneL := false, trapL := false, unknownL := false,
                closed := true }

/-- The default switch branch of processPacket: `emit('unknown')` runs
`Channel.onUnknown`, which throws RosException UNKNOWNREPLY out of the
socket data handler, so the `close()` after the emit is never reached; if
the once listener is already gone the emit is a no-op and close() runs. -/
def chUnknown (s : CState) : CState :=
  if s.unknownL then { s with unknownL := false, crashed := true }
  else chClose s

/-- `Channel.processPacket` (Channel.js 111-137) for a channel whose write
was called with returnPromise = true, so that listeners 'data' (on),
'done' (once) and 'trap' (once) were registered (Channel.js 63-76).
An empty packet makes `packet.shift()` yield `undefined`, which falls into
the default (unknown) switch branch. -/
def processPacket (s : CState) (packet : List Word) : CState :=
  match packet with
  | [] => chUnknown s
  | reply :: rest =>
    if reply = "!trap".data then
      let s1 := { s with trapped := true }
      if s1.trapL then
        chReject { s1 with trapL := false }
          (objLookupD (parsePacket rest) "message".data [])
      else s1
    else
      let s1 := if 0 < rest.length ∧ s.streaming = false ∧ s.dataL = true
                then { s with dataAcc := s.dataAcc ++ [parsePacket rest] } else s
      if reply = "!re".data then s1
      else if reply = "!done".data then
        chClose (if s1.trapped = false ∧ s1.doneL = true
                 then chResolve { s1 with doneL := false } s1.dataAcc else s1)
      else chUnknown s1

/-- Sentence delivery to one channel.  Modelled from the spec: the Receiver
(connector/Receiver.js is not in the source tree) dispatches each decoded
sentence to the callback registered for its tag, and sentences whose tag
has no registered reader are dropped; hence nothing is delivered after
stopRead, and nothing runs after the data handler crashed. -/
def runChannel (s : CState) : List (List Word) → CState
  | [] => s
  | p :: ps =>
    if s.closed = true ∨ s.crashed = true then runChannel s ps
    else runChannel (processPacket s p) ps

/-- The channel state right after `write(params, isStream, true)`. -/
def chInit (isStream : Bool) : CState :=
  { streaming := isStream, trapped := false, closed := false, crashed := false,
    dataL := true, doneL := true, trapL := true, unknownL := true,
    dataAcc := [], result := .pending, resolveCount := 0, rejectCount := 0 }

/-- States after a trap was processed: the deferred result is rejected with
the first trap's message, rejected exactly once, never resolved. -/
def phaseT (s : CState) (m : Word) : Prop :=
  s.trapped = true ∧ s.trapL = false ∧ s.result = .rejected m ∧
    s.rejectCount = 1 ∧ s.resolveCount = 0

/-- States before any trap / done / unknown reply was processed. -/
def phaseA (s : CState) : Prop :=
  s.trapped = false ∧ s.closed = false ∧ s.crashed = false ∧
    s.dataL = true ∧ s.doneL = true ∧ s.trapL = true ∧ s.unknownL = true ∧
    s.result = .pending ∧ s.resolveCount = 0 ∧ s.rejectCount = 0

/-! ## MD5 and the login handshake (RouterOSAPI.login)

Node's `crypto.createHash('MD5')` is a platform primitive; it is embedded
here as the standard MD5 algorithm over byte lists. -/

def md5K : List Nat :=
  [0xd76aa478, 0xe8c7b756, 0x242070db, 0xc1bdceee,
   0xf57c0faf, 0x4787c62a, 0xa8304613, 0xfd469501,
   0x698098d8, 0x8b44f7af, 0xffff5bb1, 0x895cd7be,
   0x6b901122, 0xfd987193, 0xa679438e, 0x49b40821,
   0xf61e2562, 0xc040b340, 0x265e5a51, 0xe9b6c7aa,
   0xd62f105d, 0x02441453, 0xd8a1e681, 0xe7d3fbc8,
   0x21e1cde6, 0xc33707d6, 0xf4d50d87, 0x455a14ed,
   0xa9e3e905, 0xfcefa3f8, 0x676f02d9, 0x8d2a4c8a,
   0xfffa3942, 0x8771f681, 0x6d9d6122, 0xfde5380c,
   0xa4beea44, 0x4bdecfa9, 0xf6bb4b60, 0xbebfbc70,
   0x289b7ec6, 0xeaa127fa, 0xd4ef3085, 0x04881d05,
   0xd9d4d039, 0xe6db99e5, 0x1fa27cf8, 0xc4ac5665,
   0xf4292244, 0x432aff97, 0xab9423a7, 0xfc93a039,
   0x655b59c3, 0x8f0ccc92, 0xffeff47d, 0x85845dd1,
   0x6fa87e4f, 0xfe2ce6e0, 0xa3014314, 0x4e0811a1,
   0xf7537e82, 0xbd3af235, 0x2ad7d2bb, 0xeb86d391]

def md5S : List Nat :=
  [7, 12, 17, 22, 7, 12, 17, 22, 7, 12, 17, 22, 7, 12, 17, 22,
   5, 9, 14, 20, 5, 9, 14, 20, 5, 9, 14, 20, 5, 9, 14, 20,
   4, 11, 16, 23, 4, 11, 16, 23, 4, 11, 16, 23, 4, 11, 16, 23,
   6, 10, 15, 21, 6, 10, 15, 21, 6, 10, 15, 21, 6, 10, 15, 21]

/-- Rotate a 32-bit value left by `n` bits. -/
def rotl32 (x n : Nat) : Nat :=
  ((x <<< n) ||| (x >>> (32 - n))) % 4294967296

/-- Little-endian 4-byte encoding. -/
def le4 (n : Nat) : List Nat :=
  [n % 256, n / 256 % 256, n / 65536 % 256, n / 16777216 % 256]

/-- Little-endian 8-byte encoding (MD5 length field). -/
def le8 (n : Nat) : List Nat :=
  le4 (n % 4294967296) ++ le4 (n / 4294967296)

/-- MD5 padding: append 0x80, zero-fill to 56 mod 64, append the 64-bit
little-endian bit length. -/
def md5Pad (msg : List Nat) : List Nat :=
  msg ++ 0x80 :: List.replicate ((119 - msg.length % 64) % 64) 0 ++ le8 (msg.length * 8)

def chunks64Aux : Nat → List Nat → List (List Nat)
  | 0, _ => []
  | n + 1, l => if l = [] then [] else l.take 64 :: chunks64Aux n (l.drop 64)

def chunks64 (l : List Nat) : List (List Nat) :=
  chunks64Aux l.length l

/-- Decode a 64-byte block into 16 little-endian 32-bit words. -/
def leWords : List Nat → List Nat
  | a :: b :: c :: d :: rest => (a + 256 * b + 65536 * c + 16777216 * d) :: leWords rest
  | _ => []

def md5F (i b c d : Nat) : Nat :=
  if i < 16 then (b &&& c) ||| ((b ^^^ 4294967295) &&& d)
  else if i < 32 then (d &&& b) ||| ((d ^^^ 4294967295) &&& c)
  else if i < 48 then b ^^^ c ^^^ d
  else c ^^^ (b ||| (d ^^^ 4294967295))

def md5G (i : Nat) : Nat :=
  if i < 16 then i
  else if i < 32 then (5 * i + 1) % 16
  else if i < 48 then (3 * i + 5) % 16
  else (7 * i) % 16

def md5Step (M : List Nat) (st : Nat × Nat × Nat × Nat) (i : Nat) :
    Nat × Nat × Nat × Nat :=
  let f := (md5F i st.2.1 st.2.2.1 st.2.2.2 + st.1 + md5K.getD i 0 +
    M.getD (md5G i) 0) % 4294967296
  (st.2.2.2, (st.2.1 + rotl32 f (md5S.getD i 0)) % 4294967296, st.2.1, st.2.2.1)

def md5Block (h : Nat × Nat × Nat × Nat) (block : List Nat) :
    Nat × Nat × Nat × Nat :=
  let st := (List.range 64).foldl (md5Step (leWords block)) h
  ((h.1 + st.1) % 4294967296, (h.2.1 + st.2.1) % 4294967296,
   (h.2.2.1 + st.2.2.1) % 4294967296, (h.2.2.2 + st.2.2.2) % 4294967296)

/-- MD5 digest (16 bytes) of a byte list. -/
def md5 (msg : List Nat) : List Nat :=
  let st := (chunks64 (md5Pad msg)).foldl md5Block
    (0x67452301, 0xefcdab89, 0x98badcfe, 0x10325476)
  le4 st.1 ++ le4 st.2.1 ++ le4 st.2.2.1 ++ le4 st.2.2.2

def hexChar (n : Nat) : Char :=
  if n < 10 then Char.ofNat (48 + n) else Char.ofNat (87 + n)

/-- Lowercase hex rendering of a byte list (Node digest('hex')). -/
def hexOfBytes (bs : List Nat) : List Char :=
  (bs.map (fun b => [hexChar (b / 16), hexChar (b % 16)])).flatten

def hexVal (c : Char) : Nat :=
  if '0' ≤ c ∧ c ≤ '9' then c.toNat - 48
  else if 'a' ≤ c ∧ c ≤ 'f' then c.toNat - 87
  else if 'A' ≤ c ∧ c ≤ 'F' then c.toNat - 55
  else 0

/-- Hex decoding of digit pairs, as Buffer.write(.., 'hex') performs. -/
def hexDecode : List Char → List Nat
  | [] => []
  | [_] => []
  | a :: b :: rest => (16 * hexVal a + hexVal b) :: hexDecode rest

/-- Buffer.prototype.write-style overwrite of `bs` into `buf` at `off`,
truncated at the buffer end. -/
def writeBytes (buf : List Nat) (off : Nat) (bs : List Nat) : List Nat :=
  buf.take off ++ bs.take (buf.length - off) ++ buf.drop (off + bs.length)

/-- The challenge buffer `RouterOSAPI.login` builds for the second /login
round (part_002 / RouterOSAPI.js, lines 387-393): allocate a zero-filled
buffer of `password.length + 17` bytes, write the 0x00 byte followed by
the password at offset 0, then write at most `ret.length / 2` bytes of the
hex-decoded challenge at offset `password.length + 1`.  The password
enters as its byte list `pw` (single-byte text, so the JavaScript string
length equals the byte count). -/
def loginChallengeBuffer (pw : List Nat) (ret : List Char) : List Nat :=
  writeBytes (writeBytes (List.replicate (pw.length + 17) 0) 0 (0 :: pw))
    (pw.length + 1) ((hexDecode ret).take (ret.length / 2))

/-- The response value the code sends in the second /login
(part_002, lines 394-398): "00" + MD5 hex digest of the challenge buffer. -/
def loginResponse (pw : List Nat) (ret : List Char) : List Char :=
  '0' :: '0' :: hexOfBytes (md5 (loginChallengeBuffer pw ret))

/-- The response as the claim words it: "00" concatenated with the
lowercase hex MD5 digest of one 0x00 byte, then the password bytes, then
the raw bytes of the hex-decoded challenge. -/
def loginResponseSpec (pw : List Nat) (ret : List Char) : List Char :=
  '0' :: '0' :: hexOfBytes (md5 (0 :: (pw ++ hexDecode ret)))

/-! ## RStream: traps, pause/stop machinery and empty-data debouncing
(RStream.js + utils.js) -/

/-- JavaScript property read `obj[k]` as an Option (absent = undefined). -/
def objLookup (obj : List (Word × Word)) (k : Word) : Option Word :=
  match obj.find? (fun p => decide (p.1 = k)) with
  | some p => some p.2
  | none => none

/-- How `RStream.onTrap` surfaces a trap error: through the data callback
when one is set, otherwise as an 'error' event. -/
inductive Surface
  | toCallback (msg : Word)
  | errorEvent (msg : Word)
deriving Repr, DecidableEq

structure RSState where
  streaming : Bool
  pausing : Bool
  paused : Bool
  stopping : Bool
  stopped : Bool
  trapped : Bool
  forcelyStop : Bool
  hasCallback : Bool
  /-- the empty-data debounce timer is armed (timeoutObj pending) -/
  debounceArmed : Bool
deriving Repr, DecidableEq

/-- `RStream.onTrap` (RStream.js 248-263): a trap whose message is exactly
"interrupted" only clears `streaming` (pause acknowledgment, nothing
surfaced); any other trap sets `stopped` and `trapped` and surfaces the
error to the callback if set, else as an 'error' event (a 'trap' event is
also emitted either way; `new Error(undefined)` has an empty message). -/
def rsOnTrap (s : RSState) (data : List (Word × Word)) : RSState × Option Surface :=
  if objLookup data "message".data = some "interrupted".data then
    ({ s with streaming := false }, none)
  else
    ({ s with stopped := true, trapped := true },
     some (if s.hasCallback then
        Surface.toCallback ((objLookup data "message".data).getD [])
      else Surface.errorEvent ((objLookup data "message".data).getD [])))

/-- The outcome of the synchronous part of `RStream.stop`. -/
inductive StopKind
  | immediateResolve
  | cancelIssued
deriving Repr, DecidableEq

/-- `RStream.stop(pausing)` (RStream.js 123-158), synchronous part: return
an already-resolved promise when already stopped or stopping (no /cancel
issued, state untouched); mark forcelyStop on a direct stop; tear a paused
stream down locally (channel.close(true), no cancel command); otherwise
mark stopping (unless in the pause protocol), cancel the empty-data
debounce timer, and issue '/cancel =tag=<id>' on a fresh transient
channel. -/
def rsStopSync (s : RSState) (pausingArg : Bool) : RSState × StopKind :=
  if s.stopped = true ∨ s.stopping = true then (s, .immediateResolve)
  else
    let s1 := if pausingArg = false then { s with forcelyStop := true } else s
    if s1.paused = true then
      ({ s1 with streaming := false, stopping := false, stopped := true },
       .immediateResolve)
    else
      let s2 := if s1.pausing = false then { s1 with stopping := true } else s1
      ({ s2 with debounceArmed := false }, .cancelIssued)

/-- The continuation of `RStream.stop` once the /cancel write resolved
(RStream.js 146-154): clear streaming; outside the pause protocol also
clear stopping, set stopped; emit 'stopped'. -/
def rsStopThen (s : RSState) : RSState :=
  if s.pausing = false then
    { s with streaming := false, stopping := false, stopped := true }
  else { s with streaming := false }

/-- `RStream.close` (RStream.js 162-164): alias for stop(). -/
def rsClose (s : RSState) : RSState × StopKind :=
  rsStopSync s false

/-- The full pause exchange for a live stream (`RStream.pause`, RStream.js
98-116): set pausing, run stop(true) which issues /cancel; the device
answers the original channel with a trap "interrupted" (rsOnTrap) and
completes the cancel channel (rsStopThen); the pause continuation then
clears pausing and sets paused. -/
def rsPauseExchange (s : RSState) : RSState × Option Surface :=
  let s1 := { s with pausing := true }
  let s2 := (rsStopSync s1 true).1
  let s3 := (rsOnTrap s2 [("message".data, "interrupted".data)]).1
  let surf := (rsOnTrap s2 [("message".data, "interrupted".data)]).2
  let s4 := rsStopThen s3
  ({ s4 with pausing := false, paused := true }, surf)

/-- The guard inside prepareDebounceEmptyData's debounced callback
(RStream.js 202-205), exactly as the source writes it: a disjunction of
the negated state flags. -/
def debounceGuard (s : RSState) : Bool :=
  !s.stopped || !s.stopping || !s.paused || !s.pausing

/-- Decimal digit parsing; models JavaScript parseInt(val, null) on the
all-digit values the '=interval=N' parameter shape produces. -/
def parseDec (cs : List Char) : Nat :=
  (cs.takeWhile (fun c => decide ('0' ≤ c ∧ c ≤ '9'))).foldl
    (fun acc c => 10 * acc + (c.toNat - 48)) 0

/-- `prepareDebounceEmptyData` (RStream.js 191-210): find the first param
containing "=interval=", read the piece after the second '=' as the
interval in seconds (default 2000 ms), and create the debounce with
timeout interval + 300 ms. -/
def debounceTimeoutMs (params : List Word) : Nat :=
  match params.find? (fun p => decide ("=interval=".data <:+: p)) with
  | some p => parseDec ((splitEq p).getD 2 []) * 1000 + 300
  | none => 2000 + 300

inductive DebEvent
  | natural
  | expire
deriving Repr, DecidableEq

/-- The debounce timer machine (utils.debounce, utils.js 4-16, wired up in
prepareDebounceEmptyData and the channel 'stream' handler, RStream.js
178-182 and 201-209).  A natural packet calls run(), re-arming the timer;
on expiry of an armed timer the callback fires: when the guard passes it
synthesizes exactly one empty data event (onStream([])) and re-arms via
run(), otherwise the timer is left cleared.  The second component counts
the synthetic empty data events emitted by the step. -/
def debStep (s : RSState) (e : DebEvent) : RSState × Nat :=
  match e with
  | .natural => ({ s with debounceArmed := true }, 0)
  | .expire =>
    if s.debounceArmed = true then
      if debounceGuard s = true then ({ s with debounceArmed := true }, 1)
      else ({ s with debounceArmed := false }, 0)
    else (s, 0)

/-- A freshly started live stream with the debounce timer armed. -/
def rsLive : RSState :=
  { streaming := true, pausing := false, paused := false, stopping := false,
    stopped := false, trapped := false, forcelyStop := false,
    hasCallback := false, debounceArmed := true }

/-! ## Session connector lifecycle (RouterOSAPI, part_002) -/

/-- Session-level connector-lifecycle state.  `connectors` records every
Connector this session ever constructed, `true` while not destroyed;
`cur` is the index `this.connector` currently refers to (none when
nulled). -/
structure SessState where
  connected : Bool
  connecting : Bool
  closing : Bool
  connectors : List Bool
  cur : Option Nat
deriving Repr, DecidableEq

/-- Connector.destroy (Connector.js 138-141) on connector `i`. -/
def destroyAt (l : List Bool) (i : Nat) : List Bool :=
  l.set i false

/-- Whether the connector `this.connector` references is alive. -/
def curAlive (s : SessState) : Bool :=
  match s.cur with
  | some i => s.connectors.getD i false
  | none => false

/-- Number of non-destroyed connectors. -/
def countTrue (l : List Bool) : Nat :=
  (l.filter id).length

/-- The lifecycle events of RouterOSAPI.connect / close and of the
Connector's socket (part_002 95-150, 272-295; the Connector destroys
itself inside onError / onTimeout / onEnd, Connector.js 164-190).
Events that are physically impossible in a state (socket events of an
already destroyed connector, continuations of calls that never ran) are
modelled as no-ops. -/
inductive SessEvent
  | connectCall
  | loginOk
  | loginFail
  | connError
  | connCloseEvt
  | closeCall
  | closeComplete
  | writeCall
deriving Repr, DecidableEq

/-- One session lifecycle step.
connectCall: rejects while connecting, no-ops while connected, otherwise
sets connecting and constructs a new Connector (part_002 96-108).
loginOk: the login continuation sets connected (125-127).
loginFail: login's catch destroys the connector and connect's catch clears
the flags (142-146, 413, 426).
connError: 'error'/'timeout' listeners clear the flags and the connector
destroyed itself (110-116, 130-136).
connCloseEvt: a 'close' event outside close(): same, via endListener.
closeCall: rejects while closing, no-ops while not connected, else sets
closing (272-293).
closeComplete: the 'close' event during close(): destroy the connector,
null it, clear the flags (286-292 plus the connect-time close listener).
writeCall: opens a channel; the connector is untouched (159-169). -/
def sessStep (s : SessState) (e : SessEvent) : SessState :=
  match e with
  | .connectCall =>
    if s.connecting = true then s
    else if s.connected = true then s
    else { s with connecting := true, connected := false,
                  connectors := s.connectors ++ [true],
                  cur := some s.connectors.length }
  | .loginOk => { s with connecting := false, connected := true }
  | .loginFail =>
    match s.cur with
    | some i => { s with connecting := false, connected := false,
                         connectors := destroyAt s.connectors i }
    | none => s
  | .connError =>
    if curAlive s = true then
      match s.cur with
      | some i => { s with connecting := false, connected := false,
                           connectors := destroyAt s.connectors i }
      | none => s
    else s
  | .connCloseEvt =>
    if curAlive s = true ∧ s.closing = false then
      match s.cur with
      | some i => { s with connecting := false, connected := false,
                           connectors := destroyAt s.connectors i }
      | none => s
    else s
  | .closeCall =>
    if s.closing = true then s
    else if s.connected = false then s
    else { s with closing := true }
  | .closeComplete =>
    if s.closing = true then
      match s.cur with
      | some i => { s with closing := false, connected := false,
                           connecting := false,
                           connectors := destroyAt s.connectors i, cur := none }
      | none => s
    else s
  | .writeCall => s

def sessInit : SessState :=
  { connected := false, connecting := false, closing := false,
    connectors := [], cur := none }

/-- Lifecycle invariant carried through the induction: at most one live
connector; if the current connector is dead (or has been nulled) every
connector is dead; and outside connecting/connected phases every connector
is dead, so connect() only ever constructs on top of all-destroyed
connectors. -/
def sessInv (s : SessState) : Prop :=
  countTrue s.connectors ≤ 1 ∧
  (curAlive s = false → countTrue s.connectors = 0) ∧
  (s.connecting = false ∧ s.connected = false → countTrue s.connectors = 0)

/-! ## Session default ports (RouterOSAPI.setOptions + Connector) -/

/-- `RouterOSAPI.setOptions` (part_002, line 85): `options.port || 8728`;
the Session's port is defaulted before the Connector ever sees it.
JavaScript falsy port values (undefined, 0) are `none` / `some 0`. -/
def sessionPort (port : Option Nat) : Nat :=
  match port with
  | some p => if p = 0 then 8728 else p
  | none => 8728

/-- The Connector constructor (Connector.js 42-53): take options.port when
truthy; when TLS is configured and options.port is falsy, default to 8729;
otherwise the port stays unset. -/
def connectorPort (port : Option Nat) (tls : Bool) : Option Nat :=
  match port with
  | some p => if p = 0 then (if tls then some 8729 else none) else some p
  | none => if tls then some 8729 else none

/-- The port a Session's connect() actually dials: the Connector is
constructed with the Session's already-defaulted port (part_002 103-108). -/
def sessionConnectPort (port : Option Nat) (tls : Bool) : Option Nat :=
  connectorPort (some (sessionPort port)) tls

/-! ## Theorems -/

theorem byte_extract (m k : Nat) : (m >>> k) &&& 0xFF = m / 2 ^ k % 256 := by
  rw [Nat.shiftRight_eq_div_pow]
  have h := Nat.and_pow_two_sub_one_eq_mod (m / 2 ^ k) 8
  norm_num at h
  exact h

theorem byte_extract0 (m : Nat) : m &&& 0xFF = m % 256 := by
  have h := Nat.and_pow_two_sub_one_eq_mod m 8
  norm_num at h
  exact h

theorem lor_high (L k a : Nat) (hL : L < 2 ^ k) :
    L ||| 2 ^ k * a = 2 ^ k * a + L := by
  rw [Nat.lor_comm]
  exact (Nat.mul_add_lt_is_or hL a).symm

/-- C1: for every word, encoding emits a length prefix selected by the
byte length `L` of the (win1252-encoded) payload, followed by exactly the
payload bytes: 1 byte `L` for `L < 0x80`; 2-byte big-endian `L ||| 0x8000`
for `L < 0x4000`; 3-byte big-endian `L ||| 0xC00000` for `L < 0x200000`;
4-byte big-endian `L ||| 0xE0000000` for `L < 0x10000000`; and otherwise
the marker byte `0xF0` followed by 4-byte big-endian `L`.  The bound
`L < 2^32` is forced by Node's maximum buffer size (and by JavaScript's
32-bit bitwise semantics in the top branch). -/
theorem encodeString_emits_length_prefix (w : List Nat) (h : w.length < 2 ^ 32) :
    encodeString w = lengthPrefixSpec w.length ++ w := by
  unfold encodeString lengthPrefixSpec
  split_ifs with h1 h2 h3 h4
  · rfl
  · rw [show w.length ||| 0x8000 = 2 ^ 15 * 1 + w.length from
      lor_high _ 15 1 (by omega)]
    simp only [beBytes, byte_extract, byte_extract0, List.append_eq,
      List.nil_append, List.cons_append, List.cons.injEq, and_true, true_and]
    omega
  · rw [show w.length ||| 0xC00000 = 2 ^ 22 * 3 + w.length from
      lor_high _ 22 3 (by omega)]
    simp only [beBytes, byte_extract, byte_extract0, List.append_eq,
      List.nil_append, List.cons_append, List.cons.injEq, and_true, true_and]
    omega
  · rw [show w.length ||| 0xE0000000 = 2 ^ 29 * 7 + w.length from
      lor_high _ 29 7 (by omega)]
    simp only [beBytes, byte_extract, byte_extract0, List.append_eq,
      List.nil_append, List.cons_append, List.cons.injEq, and_true, true_and]
    omega
  · simp only [beBytes, byte_extract, byte_extract0, List.append_eq,
      List.nil_append, List.cons_append, List.cons.injEq, and_true, true_and]
    omega

theorem encodeString_emits_length_prefix_witness :
    ([7, 7, 7] : List Nat).length < 2 ^ 32 ∧
      encodeString [7, 7, 7] = lengthPrefixSpec 3 ++ [7, 7, 7] :=
  ⟨by norm_num, encodeString_emits_length_prefix [7, 7, 7] (by norm_num)⟩

theorem runPoolAux_eq (p : List (List Nat)) :
    ∀ sent, runPoolAux p sent = sent ++ p.flatten := by
  induction p with
  | nil => intro sent; simp [runPoolAux]
  | cons d rest ih => intro sent; simp [runPoolAux, ih]

theorem txWrite_foldl_not_writable (ws : List (List Nat)) :
    ∀ p sent, List.foldl txWrite ⟨false, p, sent⟩ ws =
      ⟨false, p ++ ws.map encodeString, sent⟩ := by
  induction ws with
  | nil => intro p sent; simp
  | cons w rest ih =>
      intro p sent
      simp only [List.foldl_cons, List.map_cons]
      rw [show txWrite ⟨false, p, sent⟩ w =
            ⟨false, p ++ [encodeString w], sent⟩ by simp [txWrite], ih]
      simp

/-- C5: words written before the socket becomes writable are each appended
(encoded) to a FIFO pool, a word written while the pool is non-empty is
also pooled, and on successful connect the pool is flushed to the socket
front-to-back, so the socket's byte stream preserves the order of the
original write calls. -/
theorem transmitter_pool_fifo (ws : List (List Nat)) :
    (List.foldl txWrite txInit ws).sent = [] ∧
    (List.foldl txWrite txInit ws).pool = ws.map encodeString ∧
    (txOnConnect (List.foldl txWrite txInit ws)).sent =
      (ws.map encodeString).flatten ∧
    (txOnConnect (List.foldl txWrite txInit ws)).pool = [] ∧
    (∀ t w, 0 < t.pool.length →
      txWrite t w = { t with pool := t.pool ++ [encodeString w] }) := by
  have hfold : List.foldl txWrite txInit ws = ⟨false, ws.map encodeString, []⟩ := by
    have h := txWrite_foldl_not_writable ws [] []
    simpa [txInit] using h
  refine ⟨by rw [hfold], by rw [hfold], ?_, ?_, ?_⟩
  · rw [hfold]
    simp [txOnConnect, txRunPool, runPoolAux_eq]
  · rw [hfold]
    simp [txOnConnect, txRunPool]
  · intro t w hp
    simp [txWrite, hp]

theorem transmitter_pool_fifo_witness :
    (txOnConnect (List.foldl txWrite txInit [[1], [2]])).sent =
      encodeString [1] ++ encodeString [2] ∧
    txWrite ⟨true, [[0]], []⟩ [5] = ⟨true, [[0], encodeString [5]], []⟩ := by
  refine ⟨?_, ?_⟩
  · rw [(transmitter_pool_fifo [[1], [2]]).2.2.1]
    simp
  · rw [(transmitter_pool_fifo []).2.2.2.2 ⟨true, [[0]], []⟩ [5] (by simp)]
    rfl

theorem runChannel_frozen (s : CState) (h : s.closed = true ∨ s.crashed = true) :
    ∀ ps, runChannel s ps = s := by
  intro ps
  induction ps with
  | nil => rfl
  | cons p rest ih => simp only [runChannel, if_pos h]; exact ih

theorem phaseT_chClose (s : CState) (m : Word) (h : phaseT s m) :
    phaseT (chClose s) m := by
  obtain ⟨h1, h2, h3, h4, h5⟩ := h
  unfold chClose
  split_ifs
  · exact ⟨h1, h2, h3, h4, h5⟩
  · exact ⟨h1, rfl, h3, h4, h5⟩

theorem phaseT_chUnknown (s : CState) (m : Word) (h : phaseT s m) :
    phaseT (chUnknown s) m := by
  unfold chUnknown
  split_ifs
  · exact ⟨h.1, h.2.1, h.2.2.1, h.2.2.2.1, h.2.2.2.2⟩
  · exact phaseT_chClose s m h

theorem phaseT_step (s : CState) (m : Word) (hT : phaseT s m) (p : List Word) :
    phaseT (processPacket s p) m := by
  obtain ⟨h1, h2, h3, h4, h5⟩ := hT
  match p with
  | [] => exact phaseT_chUnknown s m ⟨h1, h2, h3, h4, h5⟩
  | reply :: rest =>
    simp only [processPacket]
    by_cases hr : reply = "!trap".data
    · rw [if_pos hr, if_neg (by simp [h2])]
      exact ⟨rfl, h2, h3, h4, h5⟩
    · rw [if_neg hr]
      have hT1 : phaseT (if 0 < rest.length ∧ s.streaming = false ∧ s.dataL = true
          then { s with dataAcc := s.dataAcc ++ [parsePacket rest] } else s) m := by
        split_ifs <;> exact ⟨h1, h2, h3, h4, h5⟩
      set s1 := (if 0 < rest.length ∧ s.streaming = false ∧ s.dataL = true
          then { s with dataAcc := s.dataAcc ++ [parsePacket rest] } else s) with hs1
      by_cases hre : reply = "!re".data
      · rw [if_pos hre]; exact hT1
      · rw [if_neg hre]
        by_cases hdn : reply = "!done".data
        · rw [if_pos hdn, if_neg (by simp [hT1.1])]
          exact phaseT_chClose s1 m hT1
        · rw [if_neg hdn]
          exact phaseT_chUnknown s1 m hT1

theorem phaseT_run (ps : List (List Word)) :
    ∀ s m, phaseT s m → phaseT (runChannel s ps) m := by
  induction ps with
  | nil => intro s m h; exact h
  | cons p rest ih =>
    intro s m h
    simp only [runChannel]
    split_ifs with hc
    · exact ih s m h
    · exact ih _ m (phaseT_step s m h p)

theorem runChannel_from_A (ps : List (List Word)) :
    ∀ s, phaseA s →
      ((runChannel s ps).trapped = false ∧ (runChannel s ps).rejectCount = 0 ∧
        (runChannel s ps).resolveCount ≤ 1) ∨
      ∃ p ∈ ps, p.headD [] = "!trap".data ∧
        phaseT (runChannel s ps) (objLookupD (parsePacket p.tail) "message".data []) := by
  induction ps with
  | nil =>
    intro s hA
    obtain ⟨ht, hcl, hcr, hd, hdo, htl, hu, hres, hrc, hrj⟩ := hA
    left
    exact ⟨ht, hrj, by simp [runChannel, hrc]⟩
  | cons p rest ih =>
    intro s hA
    obtain ⟨ht, hcl, hcr, hd, hdo, htl, hu, hres, hrc, hrj⟩ := hA
    simp only [runChannel]
    rw [if_neg (by simp [hcl, hcr])]
    cases p with
    | nil =>
      have he : processPacket s [] = { s with unknownL := false, crashed := true } := by
        simp [processPacket, chUnknown, hu]
      rw [he, runChannel_frozen _ (by simp) rest]
      left
      exact ⟨ht, hrj, by simp [hrc]⟩
    | cons reply rest' =>
      by_cases hr : reply = "!trap".data
      · have hstep : phaseT (processPacket s (reply :: rest'))
            (objLookupD (parsePacket rest') "message".data []) := by
          simp only [processPacket]
          rw [if_pos hr, if_pos (by simp [htl])]
          unfold chReject
          rw [if_pos (by simp [hres])]
          exact ⟨rfl, rfl, rfl, by simp [hrj], by simp [hrc]⟩
        right
        refine ⟨reply :: rest', List.mem_cons_self _ _, by simp [hr], ?_⟩
        exact phaseT_run rest _ _ hstep
      · by_cases hre : reply = "!re".data
        · have hstep : phaseA (processPacket s (reply :: rest')) := by
            simp only [processPacket]
            rw [if_neg hr, if_pos hre]
            split_ifs
            · exact ⟨ht, hcl, hcr, hd, hdo, htl, hu, hres, hrc, hrj⟩
            · exact ⟨ht, hcl, hcr, hd, hdo, htl, hu, hres, hrc, hrj⟩
          rcases ih _ hstep with hL | ⟨q, hq, hqt, hqT⟩
          · left; exact hL
          · right; exact ⟨q, List.mem_cons_of_mem _ hq, hqt, hqT⟩
        · by_cases hdn : reply = "!done".data
          · have hstep : (processPacket s (reply :: rest')).closed = true ∧
                (processPacket s (reply :: rest')).trapped = false ∧
                (processPacket s (reply :: rest')).rejectCount = 0 ∧
                (processPacket s (reply :: rest')).resolveCount ≤ 1 := by
              simp only [processPacket]
              rw [if_neg hr, if_neg hre, if_pos hdn]
              unfold chClose chResolve
              split_ifs <;> simp_all
            rw [runChannel_frozen _ (Or.inl hstep.1) rest]
            left
            exact ⟨hstep.2.1, hstep.2.2.1, hstep.2.2.2⟩
          · have hstep : (processPacket s (reply :: rest')).crashed = true ∧
                (processPacket s (reply :: rest')).trapped = false ∧
                (processPacket s (reply :: rest')).rejectCount = 0 ∧
                (processPacket s (reply :: rest')).resolveCount ≤ 1 := by
              simp only [processPacket]
              rw [if_neg hr, if_neg hre, if_neg hdn]
              unfold chUnknown chClose
              split_ifs <;> simp_all
            rw [runChannel_frozen _ (Or.inr hstep.1) rest]
            left
            exact ⟨hstep.2.1, hstep.2.2.1, hstep.2.2.2⟩

/-- C2: for every sequence of reply sentences delivered to a Channel whose
write was called with a deferred result (returnPromise true), if a !trap
sentence is processed then the deferred result is rejected with the trap's
message exactly once, and it is never also resolved: a !done arriving
after the trap does not complete the result with the accumulator.
(Sentence delivery stops once the channel unregistered its tag, per the
spec's Receiver dispatch rule; connector/Receiver.js is not in the tree.) -/
theorem channel_trap_rejects_once (isStream : Bool) (ps : List (List Word))
    (h : (runChannel (chInit isStream) ps).trapped = true) :
    (runChannel (chInit isStream) ps).rejectCount = 1 ∧
    (runChannel (chInit isStream) ps).resolveCount = 0 ∧
    ∃ p ∈ ps, p.headD [] = "!trap".data ∧
      (runChannel (chInit isStream) ps).result =
        .rejected (objLookupD (parsePacket p.tail) "message".data []) := by
  rcases runChannel_from_A ps (chInit isStream)
      ⟨rfl, rfl, rfl, rfl, rfl, rfl, rfl, rfl, rfl, rfl⟩ with hL | ⟨p, hp, hpt, hT⟩
  · rw [hL.1] at h; exact absurd h (by simp)
  · exact ⟨hT.2.2.2.1, hT.2.2.2.2, p, hp, hpt, hT.2.2.1⟩

theorem channel_trap_rejects_once_witness :
    (runChannel (chInit false)
      [["!trap".data, "=message=oops".data], ["!done".data]]).rejectCount = 1 ∧
    (runChannel (chInit false)
      [["!trap".data, "=message=oops".data], ["!done".data]]).resolveCount = 0 ∧
    (runChannel (chInit false)
      [["!trap".data, "=message=oops".data], ["!done".data]]).result =
      Deferred.rejected "oops".data := by
  have h := channel_trap_rejects_once false
      [["!trap".data, "=message=oops".data], ["!done".data]] (by decide)
  exact ⟨h.1, h.2.1, by decide⟩

theorem splitEq_ne_nil (v : Word) : splitEq v ≠ [] := by
  match v with
  | [] => simp [splitEq]
  | c :: cs =>
    simp only [splitEq]
    split_ifs
    · simp
    · rcases h : splitEq cs with _ | ⟨p, ps⟩ <;> simp

theorem joinEq_splitEq (v : Word) : joinEq (splitEq v) = v := by
  induction v with
  | nil => rfl
  | cons c cs ih =>
    simp only [splitEq]
    split_ifs with hc
    · rcases h : splitEq cs with _ | ⟨p, ps⟩
      · exact absurd h (splitEq_ne_nil cs)
      · rw [h] at ih
        subst hc
        simp [joinEq, ih]
    · rcases h : splitEq cs with _ | ⟨p, ps⟩
      · exact absurd h (splitEq_ne_nil cs)
      · rw [h] at ih
        rcases ps with _ | ⟨q, qs⟩
        · simp only [joinEq] at ih ⊢
          simp [ih]
        · simp only [joinEq] at ih ⊢
          rw [← ih]
          simp

theorem splitEq_append (k : Word) (hk : '=' ∉ k) (v : Word) :
    splitEq (k ++ '=' :: v) = k :: splitEq v := by
  induction k with
  | nil => simp [splitEq]
  | cons c cs ih =>
    have hc : ¬c = '=' := by
      intro h
      exact hk (h ▸ List.mem_cons_self _ _)
    have hcs : '=' ∉ cs := fun h => hk (List.mem_cons_of_mem _ h)
    simp only [List.cons_append, splitEq]
    rw [if_neg hc]
    have ih2 : splitEq (cs.append ('=' :: v)) = cs :: splitEq v := ih hcs
    rw [ih2]

theorem parseWord_attribute (k v : Word) (hk : '=' ∉ k) :
    parseWord ('=' :: (k ++ '=' :: v)) = (k, v) := by
  unfold parseWord
  rw [show splitEq ('=' :: (k ++ '=' :: v)) = [] :: k :: splitEq v from by
    have h1 : splitEq ('=' :: (k ++ '=' :: v)) = [] :: splitEq (k ++ '=' :: v) := by
      simp [splitEq]
    rw [h1, splitEq_append k hk v]]
  simp [joinEq_splitEq v]

/-- C4 counterexample: on the word "a=b" (key "a", value "b" under the
claim's first-'='-splits reading) the record does not map "a" to "b"; the
code instead drops the text before the first '=', keys on the text after
it, and stores the empty value, yielding the record mapping "b" to "". -/
theorem parsePacket_counterexample :
    parsePacket ["a=b".data] = [("b".data, [])] ∧
    parsePacket ["a=b".data] ≠ [("a".data, "b".data)] := by
  constructor
  · rfl
  · decide

/-- C4 (amended): parsing an attribute word drops everything up to and
including the first '='; the text between the first and the second '=' is
the key and everything after the second '=' (further '=' characters
included) is the value, so every RouterOS attribute word of the form
"=key=value" maps key to value; and the reply marker word never appears in
the record, because processPacket shifts the marker off before parsing. -/
theorem parsePacket_attribute_amended (k v : Word) (hk : '=' ∉ k) :
    parsePacket ['=' :: (k ++ '=' :: v)] = [(k, v)] ∧
    (∀ reply rest, sentenceRecord (reply :: rest) = parsePacket rest) := by
  constructor
  · simp [parsePacket, parseWord_attribute k v hk, objInsert]
  · intro reply rest
    rfl

theorem parsePacket_attribute_amended_witness :
    parsePacket ['=' :: ("key".data ++ '=' :: "va=lue".data)] =
      [("key".data, "va=lue".data)] :=
  (parsePacket_attribute_amended "key".data "va=lue".data (by decide)).1

theorem hexDecode_length (l : List Char) : (hexDecode l).length = l.length / 2 := by
  match l with
  | [] => simp [hexDecode]
  | [a] => simp [hexDecode]
  | a :: b :: rest =>
    simp only [hexDecode, List.length_cons, hexDecode_length rest]
    omega

theorem loginChallengeBuffer_eq (pw : List Nat) (ret : List Char)
    (h32 : ret.length = 32) :
    loginChallengeBuffer pw ret = 0 :: (pw ++ hexDecode ret) := by
  have hlen : (hexDecode ret).length = 16 := by
    rw [hexDecode_length, h32]
  have htake : (hexDecode ret).take (ret.length / 2) = hexDecode ret := by
    rw [h32]
    exact List.take_of_length_le (by rw [hlen])
  have h1 : writeBytes (List.replicate (pw.length + 17) 0) 0 (0 :: pw) =
      (0 :: pw) ++ List.replicate 16 0 := by
    unfold writeBytes
    simp only [List.take_zero, List.nil_append, List.length_replicate, Nat.sub_zero,
      Nat.zero_add, List.drop_replicate, List.length_cons]
    rw [List.take_of_length_le (by simp only [List.length_cons]; omega)]
    rw [show pw.length + 17 - (pw.length + 1) = 16 from by omega]
  have h2 : writeBytes ((0 :: pw) ++ List.replicate 16 0) (pw.length + 1)
      (hexDecode ret) = (0 :: pw) ++ hexDecode ret := by
    unfold writeBytes
    have e1 : ((0 :: pw) ++ List.replicate 16 0).length - (pw.length + 1) = 16 := by
      simp only [List.length_append, List.length_cons, List.length_replicate]
      omega
    have e2 : List.drop (pw.length + 1 + (hexDecode ret).length)
        ((0 :: pw) ++ List.replicate 16 0) = [] := by
      apply List.drop_eq_nil_of_le
      simp only [List.length_append, List.length_cons, List.length_replicate, hlen]
      omega
    rw [List.take_left' (by simp), e1, List.take_of_length_le (le_of_eq hlen), e2,
      List.append_nil]
  unfold loginChallengeBuffer
  rw [htake, h1, h2]
  simp

/-- C3: for every password (given by its single-byte-text bytes) and every
32-hex-character challenge returned by the first /login reply, the response
the Session sends in the second /login equals "00" concatenated with the
lowercase hex MD5 digest of: one 0x00 byte, then the password bytes, then
the 16 raw bytes obtained by hex-decoding the challenge. -/
theorem login_response_formula (pw : List Nat) (ret : List Char)
    (h32 : ret.length = 32) :
    loginResponse pw ret = loginResponseSpec pw ret := by
  unfold loginResponse loginResponseSpec
  rw [loginChallengeBuffer_eq pw ret h32]

theorem login_response_formula_witness :
    ("000102030405060708090a0b0c0d0e0f".data).length = 32 ∧
    loginResponse [97, 100, 109, 105, 110] "000102030405060708090a0b0c0d0e0f".data =
      loginResponseSpec [97, 100, 109, 105, 110]
        "000102030405060708090a0b0c0d0e0f".data :=
  ⟨by decide, login_response_formula _ _ (by decide)⟩

set_option maxRecDepth 40000 in
/-- Known-answer check of the embedded MD5: the standard empty-input digest. -/
theorem md5_empty_kat :
    hexOfBytes (md5 []) = "d41d8cd98f00b204e9800998ecf8427e".data := by
  decide

set_option maxRecDepth 40000 in
/-- Known-answer vector for the computed login response: password "admin",
challenge hex 000102030405060708090a0b0c0d0e0f. -/
theorem login_response_kat :
    loginResponse [97, 100, 109, 105, 110] "000102030405060708090a0b0c0d0e0f".data =
      "008332cfc643e3c027333fff658dfb93ae".data := by
  decide

theorem interrupted_lookup :
    objLookup [("message".data, "interrupted".data)] "message".data =
      some "interrupted".data := by
  decide

/-- C6: a trap whose message is exactly "interrupted" is handled as a pause
acknowledgment: the handler clears only `streaming` and surfaces nothing,
and within the pause exchange it leaves the stream paused with no error
surfaced; a trap with any other message sets the stream stopped (and
trapped) and surfaces the error to the callback when one is set, otherwise
as an 'error' event. -/
theorem stream_trap_interrupted_vs_error (s : RSState) (data : List (Word × Word)) :
    (objLookup data "message".data = some "interrupted".data →
      rsOnTrap s data = ({ s with streaming := false }, none)) ∧
    (s.streaming = true → s.stopped = false → s.stopping = false →
      s.paused = false → s.pausing = false →
      (rsPauseExchange s).1.paused = true ∧ (rsPauseExchange s).1.pausing = false ∧
      (rsPauseExchange s).1.streaming = false ∧ (rsPauseExchange s).1.stopped = false ∧
      (rsPauseExchange s).2 = none) ∧
    (objLookup data "message".data ≠ some "interrupted".data →
      (rsOnTrap s data).1 = { s with stopped := true, trapped := true } ∧
      (rsOnTrap s data).2 = some (if s.hasCallback then
          Surface.toCallback ((objLookup data "message".data).getD [])
        else Surface.errorEvent ((objLookup data "message".data).getD []))) := by
  refine ⟨?_, ?_, ?_⟩
  · intro h
    simp [rsOnTrap, h]
  · intro h1 h2 h3 h4 h5
    have hstop : rsStopSync { s with pausing := true } true =
        ({ s with pausing := true, debounceArmed := false },
          StopKind.cancelIssued) := by
      unfold rsStopSync
      simp [h2, h3, h4]
    have htrap : rsOnTrap { s with pausing := true, debounceArmed := false }
        [("message".data, "interrupted".data)] =
        ({ s with pausing := true, debounceArmed := false, streaming := false },
          none) := by
      unfold rsOnTrap
      rw [if_pos interrupted_lookup]
    dsimp only [rsPauseExchange]
    rw [hstop]
    dsimp only
    rw [htrap]
    dsimp only
    unfold rsStopThen
    simp [h2]
  · intro h
    unfold rsOnTrap
    rw [if_neg h]
    exact ⟨rfl, rfl⟩

theorem stream_trap_interrupted_vs_error_witness :
    (rsOnTrap rsLive [("message".data, "interrupted".data)]).2 = none ∧
    (rsPauseExchange rsLive).1.paused = true ∧
    (rsOnTrap rsLive [("message".data, "boom".data)]).1.stopped = true := by
  have h := stream_trap_interrupted_vs_error rsLive
      [("message".data, "interrupted".data)]
  have h2 := stream_trap_interrupted_vs_error rsLive
      [("message".data, "boom".data)]
  refine ⟨?_, ?_, ?_⟩
  · rw [h.1 (by decide)]
  · exact (h.2.1 rfl rfl rfl rfl rfl).1
  · rw [(h2.2.2 (by decide)).1]

/-- C9 (the code evaluated at the failing input): the debounce timeout for
a '=interval=5' parameter is 5*1000 + 300 ms and the timer re-arms after
each natural or synthetic event, but the guard (RStream.js 202-205) is a
disjunction of negated flags, so a stream stopped by a non-"interrupted"
trap (onTrap does not cancel the armed timer) keeps synthesizing: at the
trap-stopped state the guard still passes and an expiry emits one
synthetic empty data event even though the stream is stopped. -/
theorem debounce_fires_after_trap_stop :
    debounceTimeoutMs ["=interval=5".data] = 5 * 1000 + 300 ∧
    (rsOnTrap rsLive [("message".data, "boom".data)]).1.stopped = true ∧
    (rsOnTrap rsLive [("message".data, "boom".data)]).1.debounceArmed = true ∧
    debounceGuard (rsOnTrap rsLive [("message".data, "boom".data)]).1 = true ∧
    (debStep (rsOnTrap rsLive [("message".data, "boom".data)]).1
      DebEvent.expire).2 = 1 ∧
    (debStep (rsOnTrap rsLive [("message".data, "boom".data)]).1
      DebEvent.expire).1.debounceArmed = true := by
  decide

/-- C10: RStream.stop, and its alias close, is idempotent on a stream that
is already stopped or stopping: the call resolves immediately, issues no
second '/cancel' command, and leaves the stream's state unchanged —
whatever prior sequence of pause/resume/stop calls produced that state. -/
theorem stream_stop_idempotent (s : RSState)
    (h : s.stopped = true ∨ s.stopping = true) :
    rsStopSync s false = (s, StopKind.immediateResolve) ∧
    rsStopSync s true = (s, StopKind.immediateResolve) ∧
    rsClose s = (s, StopKind.immediateResolve) := by
  have e : ∀ b, rsStopSync s b = (s, StopKind.immediateResolve) := by
    intro b
    unfold rsStopSync
    rw [if_pos h]
  exact ⟨e false, e true, by unfold rsClose; exact e false⟩

theorem stream_stop_idempotent_witness :
    rsStopSync { rsLive with stopped := true } false =
      ({ rsLive with stopped := true }, StopKind.immediateResolve) ∧
    rsClose { rsLive with stopped := true } =
      ({ rsLive with stopped := true }, StopKind.immediateResolve) := by
  have h := stream_stop_idempotent { rsLive with stopped := true } (Or.inl rfl)
  exact ⟨h.1, h.2.2⟩

theorem countTrue_cons (b : Bool) (t : List Bool) :
    countTrue (b :: t) = (if b = true then 1 else 0) + countTrue t := by
  cases b <;> simp [countTrue, Nat.add_comm]

theorem countTrue_append_true (l : List Bool) :
    countTrue (l ++ [true]) = countTrue l + 1 := by
  simp [countTrue]

theorem one_le_countTrue_of_getD (l : List Bool) :
    ∀ i, l.getD i false = true → 1 ≤ countTrue l := by
  induction l with
  | nil => intro i h; simp [List.getD] at h
  | cons b t ih =>
    intro i h
    cases i with
    | zero =>
      simp only [List.getD_cons_zero] at h
      simp [countTrue_cons, h]
    | succ j =>
      simp only [List.getD_cons_succ] at h
      have := ih j h
      simp [countTrue_cons]
      omega

theorem countTrue_set_false (l : List Bool) :
    ∀ i, countTrue (l.set i false) =
      countTrue l - (if l.getD i false = true then 1 else 0) := by
  induction l with
  | nil => intro i; simp [countTrue]
  | cons b t ih =>
    intro i
    cases i with
    | zero =>
      cases b <;> simp [countTrue_cons, List.set, List.getD_cons_zero]
    | succ j =>
      have hj := ih j
      have hle : (if t.getD j false = true then 1 else 0) ≤ countTrue t := by
        split_ifs with hgd
        · exact one_le_countTrue_of_getD t j hgd
        · omega
      simp only [List.set, countTrue_cons, List.getD_cons_succ, hj]
      set x := (if b = true then 1 else 0) with hx
      set y := (if t.getD j false = true then 1 else 0) with hy
      omega

theorem countTrue_destroy_cur (l : List Bool) (i : Nat)
    (hle : countTrue l ≤ 1) (h0 : l.getD i false = false → countTrue l = 0) :
    countTrue (destroyAt l i) = 0 := by
  rw [destroyAt, countTrue_set_false]
  by_cases hg : l.getD i false = true
  · have h1 := one_le_countTrue_of_getD l i hg
    rw [if_pos hg]
    omega
  · have h00 := h0 (by simpa using hg)
    rw [if_neg hg]
    omega

theorem getD_append_length (l : List Bool) (b : Bool) :
    (l ++ [b]).getD l.length false = b := by
  induction l with
  | nil => rfl
  | cons a t ih =>
    simp only [List.cons_append, List.length_cons, List.getD_cons_succ]
    exact ih

theorem curAlive_some (s : SessState) (i : Nat) (h : s.cur = some i) :
    curAlive s = s.connectors.getD i false := by
  unfold curAlive
  rw [h]

theorem curAlive_none (s : SessState) (h : s.cur = none) :
    curAlive s = false := by
  unfold curAlive
  rw [h]

theorem sessInv_step (s : SessState) (hInv : sessInv s) (e : SessEvent) :
    sessInv (sessStep s e) := by
  obtain ⟨h1, h2, h3⟩ := hInv
  cases e with
  | connectCall =>
    simp only [sessStep]
    by_cases hc : s.connecting = true
    · rw [if_pos hc]
      exact ⟨h1, h2, h3⟩
    · rw [if_neg hc]
      by_cases hd : s.connected = true
      · rw [if_pos hd]
        exact ⟨h1, h2, h3⟩
      · rw [if_neg hd]
        have h0 : countTrue s.connectors = 0 :=
          h3 ⟨by simpa using hc, by simpa using hd⟩
        refine ⟨?_, ?_, ?_⟩
        · show countTrue (s.connectors ++ [true]) ≤ 1
          simp [countTrue_append_true, h0]
        · intro hdead
          have hdead2 : (s.connectors ++ [true]).getD s.connectors.length false =
              false := hdead
          rw [getD_append_length s.connectors true] at hdead2
          exact absurd hdead2 (by simp)
        · intro hcc
          exact absurd hcc.1 (by simp)
  | loginOk =>
    simp only [sessStep]
    exact ⟨h1, fun hdead => h2 hdead, fun hcc => absurd hcc.2 (by simp)⟩
  | loginFail =>
    simp only [sessStep]
    rcases hcur : s.cur with _ | i
    · exact ⟨h1, h2, h3⟩
    · have hz : countTrue (destroyAt s.connectors i) = 0 :=
        countTrue_destroy_cur _ _ h1
          (fun hh => h2 (by rw [curAlive_some s i hcur]; exact hh))
      exact ⟨by simp [hz], fun _ => hz, fun _ => hz⟩
  | connError =>
    simp only [sessStep]
    by_cases ha : curAlive s = true
    · rw [if_pos ha]
      rcases hcur : s.cur with _ | i
      · rw [curAlive_none s hcur] at ha
        exact absurd ha (by simp)
      · have hz : countTrue (destroyAt s.connectors i) = 0 :=
          countTrue_destroy_cur _ _ h1
            (fun hh => h2 (by rw [curAlive_some s i hcur]; exact hh))
        exact ⟨by simp [hz], fun _ => hz, fun _ => hz⟩
    · rw [if_neg ha]
      exact ⟨h1, h2, h3⟩
  | connCloseEvt =>
    simp only [sessStep]
    by_cases hg : curAlive s = true ∧ s.closing = false
    · rw [if_pos hg]
      rcases hcur : s.cur with _ | i
      · have hga := hg.1
        rw [curAlive_none s hcur] at hga
        exact absurd hga (by simp)
      · have hz : countTrue (destroyAt s.connectors i) = 0 :=
          countTrue_destroy_cur _ _ h1
            (fun hh => h2 (by rw [curAlive_some s i hcur]; exact hh))
        exact ⟨by simp [hz], fun _ => hz, fun _ => hz⟩
    · rw [if_neg hg]
      exact ⟨h1, h2, h3⟩
  | closeCall =>
    simp only [sessStep]
    by_cases hc : s.closing = true
    · rw [if_pos hc]
      exact ⟨h1, h2, h3⟩
    · rw [if_neg hc]
      by_cases hd : s.connected = false
      · rw [if_pos hd]
        exact ⟨h1, h2, h3⟩
      · rw [if_neg hd]
        exact ⟨h1, fun hdead => h2 hdead,
          fun hcc => absurd hcc.2 (by simpa using hd)⟩
  | closeComplete =>
    simp only [sessStep]
    by_cases hc : s.closing = true
    · rw [if_pos hc]
      rcases hcur : s.cur with _ | i
      · exact ⟨h1, h2, h3⟩
      · have hz : countTrue (destroyAt s.connectors i) = 0 :=
          countTrue_destroy_cur _ _ h1
            (fun hh => h2 (by rw [curAlive_some s i hcur]; exact hh))
        exact ⟨by simp [hz], fun _ => hz, fun _ => hz⟩
    · rw [if_neg hc]
      exact ⟨h1, h2, h3⟩
  | writeCall =>
    exact ⟨h1, h2, h3⟩

theorem sessInv_run (events : List SessEvent) :
    ∀ s, sessInv s → sessInv (List.foldl sessStep s events) := by
  induction events with
  | nil => intro s h; exact h
  | cons e rest ih =>
    intro s h
    exact ih _ (sessInv_step s h e)

/-- C7: in every state reachable from a fresh Session under any
interleaving of connect, write and close calls and connector
error/timeout/close events, at most one non-destroyed Connector exists;
and whenever the session is neither connected nor connecting (the only
situation in which connect() constructs a new Connector), every previously
created Connector is already destroyed. -/
theorem session_single_live_connector (events : List SessEvent) :
    countTrue (List.foldl sessStep sessInit events).connectors ≤ 1 ∧
    ((List.foldl sessStep sessInit events).connecting = false ∧
      (List.foldl sessStep sessInit events).connected = false →
      countTrue (List.foldl sessStep sessInit events).connectors = 0) := by
  have h := sessInv_run events sessInit
    ⟨by decide, fun _ => by decide, fun _ => by decide⟩
  exact ⟨h.1, h.2.2⟩

theorem session_single_live_connector_witness :
    countTrue (List.foldl sessStep sessInit
      [SessEvent.connectCall, SessEvent.connError]).connectors = 0 := by
  have h := session_single_live_connector
    [SessEvent.connectCall, SessEvent.connError]
  exact h.2 (by decide)

/-- C8 (the code evaluated at the failing input): a Session constructed
without a port option dials port 8728 with TLS on as well as off, because
setOptions defaults the port to 8728 before the Connector constructor's
TLS default can trigger; the Connector-level TLS default 8729 (third
conjunct) is unreachable through a Session.  The claim's "the two defaults
differ" is false for Sessions. -/
theorem session_default_port_ignores_tls :
    sessionConnectPort none true = some 8728 ∧
    sessionConnectPort none false = some 8728 ∧
    connectorPort none true = some 8729 := by
  decide
